import Mathlib

/-!
# node-swagger-doc: the items router

A shallow embedding of `src/routes/items.js` (the five handlers mounted under
`/items` by `src/index.js`) together with the parts of JavaScript, lodash and
lowdb the handlers rely on.

* A JSON value is a tree; an object is a list of key/value entries with the
  JavaScript reading rules (`Obj.get`) and writing rules (`Obj.set`: an existing
  key keeps its place and takes the new value, a new key is added at the end).
  Entries are kept in the order in which keys were first written (JavaScript
  lists integer-like keys ahead of the others when it prints an object); the
  handlers only ever read and write single keys, so the order of the entries
  plays no part in what they find, merge or remove.
* `req.app.db.get("items")` is the in-memory array of lowdb, a `List Item`.
  Every handler that calls `.write()` receives the outcome of that synchronous
  write as an argument: `Except.ok ()` when the adapter wrote `db.json`,
  `Except.error e` when it threw `e`, which is what the `catch` blocks answer
  with status 500. The lodash chain has already changed the in-memory array
  when the adapter runs.
* `nanoid(idLength)` is random; its result is an argument of type `GenId`, a
  string of length `idLength`.
-/

namespace ItemsRouter

/-- A JSON value as produced by `express.json()`. A number is kept as a decimal
`mantissa * 10 ^ exponent`; no handler inspects numbers. -/
inductive JSON where
  | null : JSON
  | bool (b : Bool) : JSON
  | num (mantissa : Int) (exponent : Int) : JSON
  | str (s : String) : JSON
  | arr (elems : List JSON) : JSON
  | obj (entries : List (String × JSON)) : JSON

/-- An item of the collection: a JavaScript object, as its own entries. -/
abbrev Item := List (String × JSON)

namespace Obj

/-- Property read `o[k]`: the value of the entry with key `k`, `none` for
`undefined`. -/
def get : Item → String → Option JSON
  | [], _ => none
  | (k', v') :: rest, k => if k' = k then some v' else get rest k

/-- Property write `o[k] = v`: an existing key takes the value, a new key is
added after the others. -/
def set : Item → String → JSON → Item
  | [], k, v => [(k, v)]
  | (k', v') :: rest, k, v =>
    if k' = k then (k, v) :: rest else (k', v') :: set rest k v

end Obj

/-- The constant `idLength` of `routes/items.js`. -/
def idLength : Nat := 8

/-- The result of one call `nanoid(idLength)`: a string of `idLength`
characters. -/
structure GenId where
  val : String
  len : val.length = idLength

/-- What `req.body` can be after `express.json()` (strict mode, the default):
an object or an array; with no JSON body it is the empty object. -/
inductive Body where
  | object (fields : List (String × JSON)) : Body
  | array (elems : List JSON) : Body

/-- The entries of an array seen as an object: index keys `"0"`, `"1"`, ... -/
def indexed : Nat → List JSON → List (String × JSON)
  | _, [] => []
  | i, v :: vs => (toString i, v) :: indexed (i + 1) vs

/-- The own enumerable properties of the request body, in order. -/
def ownEntries : Body → List (String × JSON)
  | Body.object fields => fields
  | Body.array elems => indexed 0 elems

/-- Copy every entry of `src` onto `target`, one property write after the
other. -/
def copyProps (target : Item) (src : List (String × JSON)) : Item :=
  src.foldl (fun o kv => Obj.set o kv.1 kv.2) target

/-- The object literal `{ id: nanoid(idLength), ...req.body }` of the POST
handler: `id` is written first, then the body is spread over it. -/
def newItem (g : GenId) (body : Body) : Item :=
  copyProps [("id", JSON.str g.val)] (ownEntries body)

/-- The lodash call `_.assign(target, req.body)`. -/
def assign (target : Item) (body : Body) : Item :=
  copyProps target (ownEntries body)

/-- The lodash predicate `_.matches({ id })` for a string `id` (the route
parameter): `object.id === id`. -/
def matchesId (id : String) (o : Item) : Bool :=
  match Obj.get o "id" with
  | some (JSON.str s) => s == id
  | _ => false

/-- The lodash call `_.find(items, { id })`: the first matching element, `none`
for `undefined`. -/
def find (id : String) : List Item → Option Item
  | [] => none
  | x :: xs => if matchesId id x then some x else find id xs

/-- The chain `.find({ id }).assign(body)` seen from the array: `find` hands out
the first matching object itself and `assign` writes into it, so that element
of the array is changed in place. With no match `assign` fills a fresh object
(`Object(undefined)`), and the array is as before. -/
def assignFound (id : String) (body : Body) : List Item → List Item
  | [] => []
  | x :: xs =>
    if matchesId id x then assign x body :: xs else x :: assignFound id body xs

/-- The first loop of `_.remove`: the indexes of the matching elements, in
increasing order, starting the count at `i`. -/
def removeIndexes (id : String) : Nat → List Item → List Nat
  | _, [] => []
  | i, x :: xs =>
    if matchesId id x then i :: removeIndexes id (i + 1) xs
    else removeIndexes id (i + 1) xs

/-- The loop of the lodash helper `basePullAt`, over the indexes still to be
visited: an index equal to `previous` is skipped, any other one is spliced out
(`splice(index, 1)`) and becomes `previous`. -/
def pullLoop : List Nat → Option Nat → List Item → List Item
  | [], _, array => array
  | i :: rest, previous, array =>
    if previous = some i then pullLoop rest previous array
    else pullLoop rest (some i) (array.eraseIdx i)

/-- The lodash helper `basePullAt(array, indexes)`: it goes through `indexes`
from the last to the first, with no `previous` at the start. -/
def basePullAt (array : List Item) (indexes : List Nat) : List Item :=
  pullLoop indexes.reverse none array

/-- The lodash call `_.remove(items, { id })`, as the array it leaves. -/
def remove (id : String) (items : List Item) : List Item :=
  basePullAt items (removeIndexes id 0 items)

/-- The body of a response. -/
inductive Payload where
  | empty : Payload
  | text (s : String) : Payload
  | json (v : JSON) : Payload

/-- An HTTP response: status code and body. -/
structure Response where
  status : Nat
  body : Payload

/-- The outcome of the adapter's synchronous write of `db.json`. -/
abbrev WriteOutcome := Except JSON Unit

/-- The handler `router.get('/')`: the whole array, status 200. -/
def getItems (items : List Item) : Response :=
  ⟨200, Payload.json (JSON.arr (items.map JSON.obj))⟩

/-- The handler `router.get('/:id')`: `sendStatus(404)` answers the request when
nothing is found (the `res.send(undefined)` that follows comes after the
response is complete); otherwise the item with status 200. -/
def getItemById (items : List Item) (id : String) : Response :=
  match find id items with
  | none => ⟨404, Payload.text "Not Found"⟩
  | some item => ⟨200, Payload.json (JSON.obj item)⟩

/-- The handler `router.post('/')`: builds the item, pushes it onto the array,
writes, and sends the item; a throwing write is answered with 500. -/
def postItem (items : List Item) (g : GenId) (body : Body) (w : WriteOutcome) :
    Response × List Item :=
  let item := newItem g body
  let items' := items ++ [item]
  match w with
  | Except.ok _ => (⟨200, Payload.json (JSON.obj item)⟩, items')
  | Except.error e => (⟨500, Payload.json e⟩, items')

/-- The handler `router.put('/:id')`: `find(...).assign(req.body).write()`, then
sends the chain `find({ id: req.params.id })`, which `JSON.stringify`
evaluates on the array as it is now; `undefined` gives an empty body. -/
def putItem (items : List Item) (id : String) (body : Body) (w : WriteOutcome) :
    Response × List Item :=
  let items' := assignFound id body items
  match w with
  | Except.ok _ =>
    (match find id items' with
      | none => ⟨200, Payload.empty⟩
      | some item => ⟨200, Payload.json (JSON.obj item)⟩, items')
  | Except.error e => (⟨500, Payload.json e⟩, items')

/-- The handler `router.delete('/:id')`: `remove(...).write()`, then
`sendStatus(200)`. -/
def deleteItem (items : List Item) (id : String) (w : WriteOutcome) :
    Response × List Item :=
  let items' := remove id items
  match w with
  | Except.ok _ => (⟨200, Payload.text "OK"⟩, items')
  | Except.error e => (⟨500, Payload.json e⟩, items')

/-- A run of POST requests, each with a successful write, from a given array:
the responses in order and the final array. -/
def runPosts : List Item → List (GenId × Body) → List Response × List Item
  | items, [] => ([], items)
  | items, (g, body) :: rest =>
    let r := postItem items g body (Except.ok ())
    let out := runPosts r.2 rest
    (r.1 :: out.1, out.2)

/-- The value the request body supplies for key `k`, `none` when it has no such
key (of two entries with one key the later one counts, as in `JSON.parse`). -/
def supplied (body : Body) (k : String) : Option JSON :=
  Obj.get (ownEntries body).reverse k

/-- The `id` values of the items of a collection, in order. -/
def ids (items : List Item) : List (Option JSON) :=
  items.map (fun x => Obj.get x "id")

/-- A generated id used in the worked examples. -/
def sampleId : GenId := ⟨"V1StGXR8", by decide⟩

/-- The stored item of the worked examples. -/
def oldItem : Item := [("id", JSON.str "V1StGXR8"), ("name", JSON.str "old")]

/-- Two stored items that carry the same id. -/
def twins : List Item :=
  [[("id", JSON.str "a"), ("name", JSON.str "first")],
   [("id", JSON.str "a"), ("name", JSON.str "second")]]

/-! ## Objects: reading after writing -/

theorem Obj.get_set (o : Item) (k k' : String) (v : JSON) :
    Obj.get (Obj.set o k v) k' = if k = k' then some v else Obj.get o k' := by
  induction o with
  | nil => simp [Obj.set, Obj.get]
  | cons e rest ih =>
    obtain ⟨k0, v0⟩ := e
    by_cases h0 : k0 = k
    · subst h0
      by_cases h1 : k0 = k'
      · simp [Obj.set, Obj.get, h1]
      · simp [Obj.set, Obj.get, h1]
    · by_cases h1 : k0 = k'
      · subst h1
        have h2 : ¬ k = k0 := fun h => h0 h.symm
        simp [Obj.set, Obj.get, h0, h2]
      · simp [Obj.set, Obj.get, h0, h1, ih]

theorem Obj.get_append (a b : Item) (k : String) :
    Obj.get (a ++ b) k = (Obj.get a k).or (Obj.get b k) := by
  induction a with
  | nil => simp [Obj.get]
  | cons e rest ih =>
    obtain ⟨k0, v0⟩ := e
    by_cases h0 : k0 = k
    · simp [Obj.get, h0]
    · simp [Obj.get, h0, ih]

theorem get_copyProps (src : List (String × JSON)) (o : Item) (k : String) :
    Obj.get (copyProps o src) k = (Obj.get src.reverse k).or (Obj.get o k) := by
  induction src generalizing o with
  | nil => simp [copyProps, Obj.get]
  | cons e rest ih =>
    obtain ⟨k0, v0⟩ := e
    have step : copyProps o ((k0, v0) :: rest) = copyProps (Obj.set o k0 v0) rest := rfl
    rw [step, ih, Obj.get_set, List.reverse_cons, Obj.get_append]
    cases hr : Obj.get rest.reverse k with
    | some v => simp
    | none =>
      by_cases h0 : k0 = k
      · simp [Obj.get, h0]
      · simp [Obj.get, h0]

theorem get_assign (old : Item) (body : Body) (k : String) :
    Obj.get (assign old body) k = (supplied body k).or (Obj.get old k) :=
  get_copyProps (ownEntries body) old k

theorem get_newItem_id (g : GenId) (body : Body) (h : supplied body "id" = none) :
    Obj.get (newItem g body) "id" = some (JSON.str g.val) := by
  unfold newItem
  rw [get_copyProps]
  unfold supplied at h
  rw [h]
  simp [Obj.get]

theorem matchesId_newItem (g : GenId) (body : Body) (h : supplied body "id" = none) :
    matchesId g.val (newItem g body) = true := by
  unfold matchesId
  rw [get_newItem_id g body h]
  simp

/-! ## The array: find, assign in place, remove -/

theorem find_append_of_none (id : String) (xs ys : List Item)
    (h : List.filter (matchesId id) xs = []) : find id (xs ++ ys) = find id ys := by
  induction xs with
  | nil => rfl
  | cons x rest ih =>
    by_cases hx : matchesId id x = true
    · simp [List.filter, hx] at h
    · have hx' : matchesId id x = false := by simpa using hx
      simp only [List.filter, hx'] at h
      simp [find, hx', ih h]

theorem find_eq_none (id : String) (xs : List Item)
    (h : List.filter (matchesId id) xs = []) : find id xs = none := by
  have := find_append_of_none id xs [] h
  simpa [find] using this

theorem assignFound_of_none (id : String) (body : Body) (xs : List Item)
    (h : List.filter (matchesId id) xs = []) : assignFound id body xs = xs := by
  induction xs with
  | nil => rfl
  | cons x rest ih =>
    by_cases hx : matchesId id x = true
    · simp [List.filter, hx] at h
    · have hx' : matchesId id x = false := by simpa using hx
      simp only [List.filter, hx'] at h
      simp [assignFound, hx', ih h]

theorem pullLoop_eq_foldl (l : List Nat) (previous : Option Nat) (array : List Item)
    (hp : ∀ i ∈ l, previous ≠ some i) (hl : l.Pairwise (fun a b => a ≠ b)) :
    pullLoop l previous array = l.foldl (fun a i => a.eraseIdx i) array := by
  induction l generalizing previous array with
  | nil => rfl
  | cons i rest ih =>
    have hi : previous ≠ some i := hp i (List.mem_cons_self i rest)
    rw [List.pairwise_cons] at hl
    simp only [pullLoop, if_neg hi, List.foldl_cons]
    apply ih
    · intro j hj hsome
      exact hl.1 j hj (Option.some.inj hsome)
    · exact hl.2

theorem removeIndexes_ge (id : String) (xs : List Item) (n : Nat) :
    ∀ i ∈ removeIndexes id n xs, n ≤ i := by
  induction xs generalizing n with
  | nil => simp [removeIndexes]
  | cons x rest ih =>
    intro i hi
    by_cases hx : matchesId id x = true
    · simp only [removeIndexes, hx, if_true, List.mem_cons] at hi
      rcases hi with h0 | h0
      · omega
      · have := ih (n + 1) i h0
        omega
    · have hx' : matchesId id x = false := by simpa using hx
      simp only [removeIndexes, hx'] at hi
      have := ih (n + 1) i (by simpa using hi)
      omega

theorem removeIndexes_distinct (id : String) (xs : List Item) (n : Nat) :
    (removeIndexes id n xs).Pairwise (fun a b => a ≠ b) := by
  induction xs generalizing n with
  | nil => simp [removeIndexes]
  | cons x rest ih =>
    by_cases hx : matchesId id x = true
    · simp only [removeIndexes, hx, if_true, List.pairwise_cons]
      refine ⟨?_, ih (n + 1)⟩
      intro j hj
      have := removeIndexes_ge id rest (n + 1) j hj
      omega
    · have hx' : matchesId id x = false := by simpa using hx
      simp only [removeIndexes, hx']
      simpa using ih (n + 1)

theorem basePullAt_cons (id : String) (x : Item) (xs array : List Item) (n : Nat)
    (hx : matchesId id x = true) :
    basePullAt array (removeIndexes id n (x :: xs))
      = (basePullAt array (removeIndexes id (n + 1) xs)).eraseIdx n := by
  have hd := removeIndexes_distinct id (x :: xs) n
  have hd' := removeIndexes_distinct id xs (n + 1)
  have hrev : ∀ l : List Nat, l.Pairwise (fun a b => a ≠ b) →
      l.reverse.Pairwise (fun a b => a ≠ b) := by
    intro l hl
    rw [List.pairwise_reverse]
    exact hl.imp (fun h => Ne.symm h)
  unfold basePullAt
  rw [pullLoop_eq_foldl _ none array (by simp) (hrev _ hd),
    pullLoop_eq_foldl _ none array (by simp) (hrev _ hd')]
  simp [removeIndexes, hx, List.foldl_append]

theorem basePullAt_removeIndexes (id : String) (xs pre : List Item) :
    basePullAt (pre ++ xs) (removeIndexes id pre.length xs)
      = pre ++ xs.filter (fun x => !matchesId id x) := by
  induction xs generalizing pre with
  | nil => simp [removeIndexes, basePullAt, pullLoop]
  | cons x rest ih =>
    have hsplit : pre ++ x :: rest = (pre ++ [x]) ++ rest := by simp
    have hlen : (pre ++ [x]).length = pre.length + 1 := by simp
    have ih' := ih (pre ++ [x])
    rw [hlen, ← hsplit] at ih'
    by_cases hx : matchesId id x = true
    · rw [basePullAt_cons id x rest _ pre.length hx, ih']
      rw [List.append_assoc, List.eraseIdx_append_of_length_le (Nat.le_refl _)]
      simp [List.filter, hx]
    · have hx' : matchesId id x = false := by simpa using hx
      simp only [removeIndexes, hx']
      rw [if_neg (by simp), ih']
      simp [List.filter, hx']

theorem remove_eq_filter (id : String) (xs : List Item) :
    remove id xs = xs.filter (fun x => !matchesId id x) := by
  have := basePullAt_removeIndexes id xs []
  simpa [remove] using this

theorem filter_matches_eq_nil (id : String) (xs : List Item)
    (h : ∀ x ∈ xs, matchesId id x = false) : List.filter (matchesId id) xs = [] := by
  induction xs with
  | nil => rfl
  | cons x rest ih =>
    have hx : matchesId id x = false := h x (List.mem_cons_self x rest)
    have hr : ∀ y ∈ rest, matchesId id y = false :=
      fun y hy => h y (List.mem_cons_of_mem x hy)
    simp [List.filter, hx, ih hr]

theorem ids_assignFound (id : String) (body : Body) (xs : List Item)
    (h : supplied body "id" = none) : ids (assignFound id body xs) = ids xs := by
  induction xs with
  | nil => rfl
  | cons x rest ih =>
    by_cases hx : matchesId id x = true
    · simp [assignFound, hx, ids, get_assign, h]
    · have hx' : matchesId id x = false := by simpa using hx
      simp only [ids] at ih
      simp [assignFound, hx', ids, ih]

theorem runPosts_from (items : List Item) (reqs : List (GenId × Body)) :
    (runPosts items reqs).2 = items ++ reqs.map (fun r => newItem r.1 r.2) ∧
    (runPosts items reqs).1
      = reqs.map (fun r => Response.mk 200 (Payload.json (JSON.obj (newItem r.1 r.2)))) := by
  induction reqs generalizing items with
  | nil => simp [runPosts]
  | cons r rest ih =>
    obtain ⟨g, body⟩ := r
    have h := ih (items ++ [newItem g body])
    simp only [runPosts, postItem]
    exact ⟨by simpa using h.1, by simpa using h.2⟩

theorem assignFound_spec (id : String) (body : Body) (xs : List Item)
    (h : ∃ x ∈ xs, matchesId id x = true) :
    ∃ (i : Nat) (old : Item), xs[i]? = some old ∧ matchesId id old = true ∧
      (∀ (j : Nat) (y : Item), j < i → xs[j]? = some y → matchesId id y = false) ∧
      assignFound id body xs = xs.set i (assign old body) := by
  induction xs with
  | nil => simp at h
  | cons x rest ih =>
    by_cases hx : matchesId id x = true
    · refine ⟨0, x, by simp, hx, ?_, by simp [assignFound, hx]⟩
      intro j y hj
      omega
    · have hx' : matchesId id x = false := by simpa using hx
      obtain ⟨z, hz, hzm⟩ := h
      have hz' : z ∈ rest := by
        rcases List.mem_cons.mp hz with h0 | h0
        · subst h0
          exact absurd hzm hx
        · exact h0
      obtain ⟨i, old, hi, hm, hfirst, hset⟩ := ih ⟨z, hz', hzm⟩
      refine ⟨i + 1, old, by simpa using hi, hm, ?_, by simp [assignFound, hx', hset]⟩
      intro j y hj hy
      cases j with
      | zero =>
        have : x = y := by simpa using hy
        rw [← this]
        exact hx'
      | succ j =>
        exact hfirst j y (by omega) (by simpa using hy)

theorem find_assignFound_same (id : String) (body : Body) (xs : List Item)
    (hb : supplied body "id" = none) :
    find id (assignFound id body xs) = (find id xs).map (fun x => assign x body) := by
  induction xs with
  | nil => rfl
  | cons x rest ih =>
    have hm : matchesId id (assign x body) = matchesId id x := by
      simp [matchesId, get_assign, hb]
    by_cases hx : matchesId id x = true
    · simp [assignFound, find, hx, hm]
    · have hx' : matchesId id x = false := by simpa using hx
      simp [assignFound, find, hx', ih]

theorem putItem_response_without_id_field (items : List Item) (id : String) (body : Body)
    (old : Item) (hb : supplied body "id" = none) (ho : find id items = some old) :
    (putItem items id body (Except.ok ())).1
      = ⟨200, Payload.json (JSON.obj (assign old body))⟩ := by
  have hf := find_assignFound_same id body items hb
  rw [ho] at hf
  simp [putItem, hf]

theorem putItem_ids_without_id_field (items : List Item) (id : String) (body : Body)
    (w : WriteOutcome) (h : supplied body "id" = none) :
    ids (putItem items id body w).2 = ids items := by
  have hk := ids_assignFound id body items h
  cases w with
  | ok u => simpa [putItem] using hk
  | error e => simpa [putItem] using hk

/-! ## The claims -/

/-- C1 (the code departs from the claim): on a body that carries its own `id`,
here the string "mine", POST /items answers 200 with an item whose `id` is the
supplied "mine", and stores that item; the generated id, whatever it is, is a
different value and appears nowhere. The spread comes after the `id` entry in
the object literal, so the body wins. -/
theorem post_body_id_overrides_generated (items : List Item) (g : GenId) :
    postItem items g (Body.object [("id", JSON.str "mine")]) (Except.ok ())
      = (⟨200, Payload.json (JSON.obj [("id", JSON.str "mine")])⟩,
         items ++ [[("id", JSON.str "mine")]]) ∧
    Obj.get [("id", JSON.str "mine")] "id" = some (JSON.str "mine") ∧
    JSON.str "mine" ≠ JSON.str g.val := by
  refine ⟨rfl, rfl, ?_⟩
  intro h
  have hs : "mine" = g.val := by injection h
  have hl := g.len
  rw [← hs] at hl
  revert hl
  decide

/-- C2 (the code departs from the claim): PUT /items/a with the fields
"id": "b" on a collection whose only item has id "a" writes the supplied id
into the stored item. The collection becomes the single item with id "b", so
the sequence of ids is no longer what it was before the call, and the lookup of
the path id that follows finds nothing: the answer is 200 with an empty body. -/
theorem put_body_id_overwrites_id :
    putItem [[("id", JSON.str "a")]] "a" (Body.object [("id", JSON.str "b")]) (Except.ok ())
      = (⟨200, Payload.empty⟩, [[("id", JSON.str "b")]]) ∧
    ids (putItem [[("id", JSON.str "a")]] "a" (Body.object [("id", JSON.str "b")])
      (Except.ok ())).2 = [some (JSON.str "b")] ∧
    ids [[("id", JSON.str "a")]] = [some (JSON.str "a")] ∧
    ids (putItem [[("id", JSON.str "a")]] "a" (Body.object [("id", JSON.str "b")])
      (Except.ok ())).2 ≠ ids [[("id", JSON.str "a")]] := by
  refine ⟨rfl, rfl, rfl, ?_⟩
  intro h
  have h1 : [some (JSON.str "b")] = [some (JSON.str "a")] := h
  simp at h1

/-- C3 as stated fails: with two items that both carry id "a", DELETE /items/a
removes both, the later one included; the collection of two becomes empty
instead of one shorter. -/
theorem delete_twins_counterexample :
    (deleteItem twins "a" (Except.ok ())).2 = [] ∧ twins.length = 2 ∧
    ¬ ((deleteItem twins "a" (Except.ok ())).2.length + 1 = twins.length) := by
  refine ⟨rfl, rfl, ?_⟩
  have h : (deleteItem twins "a" (Except.ok ())).2 = [] := rfl
  rw [h]
  decide

/-- C3 amended: for every collection, every id and every write outcome,
DELETE /items/(id) removes every item whose `id` equals the argument and nothing
else: what is left is the collection without the matching items, the others in
place and in order, no matching item remains, and the collection becomes
shorter by the number of items that carried the id (by exactly one when one item
carries it). -/
theorem delete_removes_every_match (items : List Item) (id : String) (w : WriteOutcome) :
    (deleteItem items id w).2 = items.filter (fun x => !matchesId id x) ∧
    List.filter (matchesId id) (deleteItem items id w).2 = [] ∧
    (deleteItem items id w).2.length + (items.filter (matchesId id)).length
      = items.length := by
  have hd : (deleteItem items id w).2 = items.filter (fun x => !matchesId id x) := by
    cases w with
    | ok u => simp [deleteItem, remove_eq_filter]
    | error e => simp [deleteItem, remove_eq_filter]
  refine ⟨hd, ?_, ?_⟩
  · rw [hd, List.filter_filter]
    simp
  · rw [hd]
    have h1 := List.length_eq_countP_add_countP (matchesId id) items
    rw [List.countP_eq_length_filter, List.countP_eq_length_filter] at h1
    have h2 : List.filter (fun a => decide ¬ matchesId id a = true) items
        = List.filter (fun x => !matchesId id x) items := by
      congr 1
      funext a
      cases matchesId id a <;> simp
    rw [h2] at h1
    omega

/-- C4 as stated fails: when the generated id is one that a stored item already
carries (nothing checks for a collision), POST /items returns the new item X,
yet GET /items/(X.id) on the resulting collection answers with the older item,
which has other fields. -/
theorem post_then_get_counterexample :
    (postItem [oldItem] sampleId (Body.object [("name", JSON.str "new")]) (Except.ok ())).1
      = ⟨200, Payload.json (JSON.obj [("id", JSON.str "V1StGXR8"), ("name", JSON.str "new")])⟩ ∧
    getItemById
        (postItem [oldItem] sampleId (Body.object [("name", JSON.str "new")]) (Except.ok ())).2
        "V1StGXR8"
      = ⟨200, Payload.json (JSON.obj [("id", JSON.str "V1StGXR8"), ("name", JSON.str "old")])⟩ ∧
    getItemById
        (postItem [oldItem] sampleId (Body.object [("name", JSON.str "new")]) (Except.ok ())).2
        "V1StGXR8"
      ≠ (postItem [oldItem] sampleId (Body.object [("name", JSON.str "new")]) (Except.ok ())).1 := by
  refine ⟨rfl, rfl, ?_⟩
  intro h
  have h1 : Response.mk 200 (Payload.json
        (JSON.obj [("id", JSON.str "V1StGXR8"), ("name", JSON.str "old")]))
      = Response.mk 200 (Payload.json
        (JSON.obj [("id", JSON.str "V1StGXR8"), ("name", JSON.str "new")])) := h
  simp at h1

/-- C4 amended: for every collection, every generated id that no stored item
carries yet and every request body without an `id` key, POST /items answers 200
with an item X whose `id` is the generated id, and GET /items/(X.id) on the
resulting collection answers 200 with exactly X. -/
theorem post_then_get_roundtrip (items : List Item) (g : GenId) (body : Body)
    (hb : supplied body "id" = none) (hc : ∀ x ∈ items, matchesId g.val x = false) :
    (postItem items g body (Except.ok ())).1
      = ⟨200, Payload.json (JSON.obj (newItem g body))⟩ ∧
    Obj.get (newItem g body) "id" = some (JSON.str g.val) ∧
    getItemById (postItem items g body (Except.ok ())).2 g.val
      = ⟨200, Payload.json (JSON.obj (newItem g body))⟩ := by
  refine ⟨rfl, get_newItem_id g body hb, ?_⟩
  have hf : find g.val (items ++ [newItem g body]) = some (newItem g body) := by
    rw [find_append_of_none g.val items _ (filter_matches_eq_nil g.val items hc)]
    simp [find, matchesId_newItem g body hb]
  simp [getItemById, postItem, hf]

/-- Witness for C4 amended: the first example scenario, a body with `name` and
`words` posted to the empty collection. -/
theorem post_then_get_roundtrip_witness :
    supplied (Body.object [("name", JSON.str "a"), ("words", JSON.str "b")]) "id" = none ∧
    getItemById
        (postItem [] sampleId (Body.object [("name", JSON.str "a"), ("words", JSON.str "b")])
          (Except.ok ())).2 sampleId.val
      = ⟨200, Payload.json (JSON.obj
          [("id", JSON.str "V1StGXR8"), ("name", JSON.str "a"), ("words", JSON.str "b")])⟩ :=
  ⟨rfl, (post_then_get_roundtrip [] sampleId
    (Body.object [("name", JSON.str "a"), ("words", JSON.str "b")]) rfl
    (by intro x hx; cases hx)).2.2⟩

/-- C5: starting from the empty collection, after the N POST requests of any
sequence of N bodies, the collection has exactly N items, GET /items answers
with that array, and its i-th item is the item the i-th POST returned; more
generally every POST leaves the stored items as a prefix, in order, and puts its
own item (the one it returns when the write succeeds) at the end. -/
theorem creates_keep_insertion_order (reqs : List (GenId × Body)) :
    (runPosts [] reqs).2.length = reqs.length ∧
    (runPosts [] reqs).1
      = (runPosts [] reqs).2.map (fun x => Response.mk 200 (Payload.json (JSON.obj x))) ∧
    getItems (runPosts [] reqs).2
      = ⟨200, Payload.json (JSON.arr ((runPosts [] reqs).2.map JSON.obj))⟩ ∧
    (∀ (items : List Item) (g : GenId) (body : Body) (w : WriteOutcome),
      ∃ x : Item, (postItem items g body w).2 = items ++ [x] ∧
        (postItem items g body (Except.ok ())).1 = ⟨200, Payload.json (JSON.obj x)⟩) := by
  obtain ⟨h2, h1⟩ := runPosts_from [] reqs
  refine ⟨by simp [h2], ?_, rfl, ?_⟩
  · rw [h1, h2]
    simp
  · intro items g body w
    refine ⟨newItem g body, ?_, rfl⟩
    cases w <;> rfl

/-- C6: for every collection that contains an item with the given id, every
fields object and every write outcome, PUT /items/(id) puts the merged record
at the place `i` of the first item `old` with that id and changes nothing else:
same length, every other place as before. The merged record reads, for each
key, the supplied value when the fields supply one and the old value otherwise.
Worked example: the fields "words": "c" on the item id, name "a", words "b"
give id, name "a", words "c", which a following GET returns. -/
theorem put_merges_first_match (items : List Item) (id : String) (body : Body)
    (w : WriteOutcome) (h : ∃ x ∈ items, matchesId id x = true) :
    (∃ (i : Nat) (old : Item), items[i]? = some old ∧ matchesId id old = true ∧
      (∀ (j : Nat) (y : Item), j < i → items[j]? = some y → matchesId id y = false) ∧
      (putItem items id body w).2 = items.set i (assign old body) ∧
      (putItem items id body w).2.length = items.length ∧
      (putItem items id body w).2[i]? = some (assign old body) ∧
      (∀ j : Nat, j ≠ i → (putItem items id body w).2[j]? = items[j]?) ∧
      (∀ (k : String) (v : JSON), supplied body k = some v →
        Obj.get (assign old body) k = some v) ∧
      (∀ k : String, supplied body k = none →
        Obj.get (assign old body) k = Obj.get old k)) ∧
    (∀ s : String,
      (putItem [[("id", JSON.str s), ("name", JSON.str "a"), ("words", JSON.str "b")]] s
          (Body.object [("words", JSON.str "c")]) w).2
        = [[("id", JSON.str s), ("name", JSON.str "a"), ("words", JSON.str "c")]] ∧
      getItemById
          (putItem [[("id", JSON.str s), ("name", JSON.str "a"), ("words", JSON.str "b")]] s
            (Body.object [("words", JSON.str "c")]) w).2 s
        = ⟨200, Payload.json (JSON.obj
            [("id", JSON.str s), ("name", JSON.str "a"), ("words", JSON.str "c")])⟩) := by
  have hp : (putItem items id body w).2 = assignFound id body items := by
    cases w <;> rfl
  constructor
  · obtain ⟨i, old, hi, hm, hfirst, hset⟩ := assignFound_spec id body items h
    have hlt : i < items.length := by
      rcases Nat.lt_or_ge i items.length with hlt | hge
      · exact hlt
      · rw [List.getElem?_eq_none hge] at hi
        cases hi
    refine ⟨i, old, hi, hm, hfirst, ?_, ?_, ?_, ?_, ?_, ?_⟩
    · rw [hp, hset]
    · rw [hp, hset, List.length_set]
    · rw [hp, hset, List.getElem?_set]
      simp [hlt]
    · intro j hj
      rw [hp, hset, List.getElem?_set_ne (Ne.symm hj)]
    · intro k v hk
      rw [get_assign, hk]
      rfl
    · intro k hk
      rw [get_assign, hk]
      rfl
  · intro s
    have hq : ∀ its : List Item, (putItem its s (Body.object [("words", JSON.str "c")]) w).2
        = assignFound s (Body.object [("words", JSON.str "c")]) its := by
      intro its
      cases w <;> rfl
    rw [hq]
    simp [assignFound, matchesId, Obj.get, assign, copyProps, ownEntries, Obj.set,
      getItemById, find]

/-- Witness for C6: the stored example item, updated with a new `name`. -/
theorem put_merges_first_match_witness :
    (∃ x ∈ [oldItem], matchesId "V1StGXR8" x = true) ∧
    ∃ (i : Nat) (old : Item), [oldItem][i]? = some old ∧
      (putItem [oldItem] "V1StGXR8" (Body.object [("name", JSON.str "new")])
        (Except.ok ())).2 = [oldItem].set i (assign old (Body.object [("name", JSON.str "new")])) :=
  ⟨⟨oldItem, List.mem_singleton.mpr rfl, rfl⟩,
    match (put_merges_first_match [oldItem] "V1StGXR8" (Body.object [("name", JSON.str "new")])
      (Except.ok ()) ⟨oldItem, List.mem_singleton.mpr rfl, rfl⟩).1 with
    | ⟨i, old, hi, _, _, hset, _⟩ => ⟨i, old, hi, hset⟩⟩

/-- C7 (the code departs from the claim): PUT /items/a with the fields
"id": "b" on a collection that contains an item with id "a" stores the merged
record, whose id is now "b", and then looks the path id "a" up again. With one
such item the answer is 200 with an empty body; with a second item of id "a"
the answer is that second item, which was not updated. In neither case is the
returned item the merged record just stored. -/
theorem put_response_misses_updated_item :
    putItem [[("id", JSON.str "a"), ("name", JSON.str "x")]] "a"
        (Body.object [("id", JSON.str "b")]) (Except.ok ())
      = (⟨200, Payload.empty⟩, [[("id", JSON.str "b"), ("name", JSON.str "x")]]) ∧
    putItem twins "a" (Body.object [("id", JSON.str "b")]) (Except.ok ())
      = (⟨200, Payload.json (JSON.obj [("id", JSON.str "a"), ("name", JSON.str "second")])⟩,
         [[("id", JSON.str "b"), ("name", JSON.str "first")],
          [("id", JSON.str "a"), ("name", JSON.str "second")]]) :=
  ⟨rfl, rfl⟩

/-- C8: for every collection and every id, once DELETE /items/(id) has answered
200, no item with that id is left in the collection, and GET /items/(id) on it
answers 404. -/
theorem delete_then_get_not_found (items : List Item) (id : String) :
    (deleteItem items id (Except.ok ())).1 = ⟨200, Payload.text "OK"⟩ ∧
    List.filter (matchesId id) (deleteItem items id (Except.ok ())).2 = [] ∧
    find id (deleteItem items id (Except.ok ())).2 = none ∧
    getItemById (deleteItem items id (Except.ok ())).2 id
      = ⟨404, Payload.text "Not Found"⟩ := by
  have hd : (deleteItem items id (Except.ok ())).2
      = items.filter (fun x => !matchesId id x) := by
    simp [deleteItem, remove_eq_filter]
  have hnil : List.filter (matchesId id) (deleteItem items id (Except.ok ())).2 = [] := by
    rw [hd, List.filter_filter]
    simp
  have hf := find_eq_none id _ hnil
  refine ⟨rfl, hnil, hf, ?_⟩
  simp [getItemById, hf]

/-- C9: for every collection, every id that no item in it carries and every
fields object, PUT /items/(id) with a successful write answers 200 (an empty
body, not the 500 of the catch block), and whatever the write does the stored
collection is exactly what it was before the call. -/
theorem put_missing_id_changes_nothing (items : List Item) (id : String) (body : Body)
    (h : ∀ x ∈ items, matchesId id x = false) :
    putItem items id body (Except.ok ()) = (⟨200, Payload.empty⟩, items) ∧
    (∀ w : WriteOutcome, (putItem items id body w).2 = items) := by
  have hnil := filter_matches_eq_nil id items h
  have ha := assignFound_of_none id body items hnil
  have hf := find_eq_none id items hnil
  constructor
  · simp [putItem, ha, hf]
  · intro w
    cases w with
    | ok u => simp [putItem, ha]
    | error e => simp [putItem, ha]

/-- Witness for C9: an id that the one stored item does not carry. -/
theorem put_missing_id_changes_nothing_witness :
    (∀ x ∈ [oldItem], matchesId "doesnotexist" x = false) ∧
    putItem [oldItem] "doesnotexist" (Body.object [("words", JSON.str "c")]) (Except.ok ())
      = (⟨200, Payload.empty⟩, [oldItem]) :=
  ⟨fun x hx => by rw [List.mem_singleton.mp hx]; rfl,
    (put_missing_id_changes_nothing [oldItem] "doesnotexist"
      (Body.object [("words", JSON.str "c")])
      (fun x hx => by rw [List.mem_singleton.mp hx]; rfl)).1⟩

/-- C10: for every collection and every id that no item in it carries,
DELETE /items/(id) with a successful write answers 200, and whatever the write
does the collection is exactly what it was before the call. -/
theorem delete_missing_id_changes_nothing (items : List Item) (id : String)
    (h : ∀ x ∈ items, matchesId id x = false) :
    deleteItem items id (Except.ok ()) = (⟨200, Payload.text "OK"⟩, items) ∧
    (∀ w : WriteOutcome, (deleteItem items id w).2 = items) := by
  have hk : items.filter (fun x => !matchesId id x) = items := by
    rw [List.filter_eq_self]
    intro x hx
    simp [h x hx]
  have hr : remove id items = items := by rw [remove_eq_filter, hk]
  constructor
  · simp [deleteItem, hr]
  · intro w
    cases w with
    | ok u => simp [deleteItem, hr]
    | error e => simp [deleteItem, hr]

/-- Witness for C10: an id that neither of the two stored items carries. -/
theorem delete_missing_id_changes_nothing_witness :
    (∀ x ∈ twins, matchesId "doesnotexist" x = false) ∧
    deleteItem twins "doesnotexist" (Except.ok ()) = (⟨200, Payload.text "OK"⟩, twins) :=
  ⟨by decide,
    (delete_missing_id_changes_nothing twins "doesnotexist" (by decide)).1⟩

end ItemsRouter
